import Mathlib

/-!
Shallow embedding of `mythril/solidity/soliditycontract.py`: the compact
source-map decoder (`_get_solc_mappings`), the autogenerated-code
classifier (`_is_autogenerated_code`), the per-file registry
(`SolidityFile`, `get_full_contract_sources`) and the instruction
resolver (`get_source_info`).

Modelling conventions: Python byte strings are `List Nat` (one element
per byte of the UTF-8 encoding), Python `list[i]` indexing — including
negative wrap-around — is `pyGet`, slicing `xs[a:b]` is `pySlice`,
`int(s)` is `pyInt`, and a raised exception is `Except.error` /
`Option SolcError`.
-/

deriving instance DecidableEq for Except

namespace Solc

/-- Exceptions the modelled code can raise: `KeyError`, `ValueError`
(from `int(...)`), `IndexError`, and `UnboundLocalError` (a running
source-map value used before ever being assigned). -/
inductive SolcError where
  | keyError
  | valueError
  | indexError
  | unboundLocal
deriving DecidableEq

/-- `SolidityFile` from the source: filename, UTF-8 content bytes
(`data`), and the `full_contract_source` set of
`"offset:length:file_index"` strings of whole top-level declarations,
modelled as a duplicate-free list used only for membership tests. -/
structure SolidityFile where
  filename : String
  data : List Nat
  full_contract_source : List String
deriving DecidableEq

/-- `SourceMapping` from the source, one decoded entry per instruction. -/
structure SourceMapping where
  solidity_file_idx : Int
  offset : Int
  length : Int
  lineno : Option Nat
  solc_mapping : String
deriving DecidableEq

/-- `SourceCodeInfo` from the source; the lossy UTF-8 decode of the
snippet is kept as the raw byte slice. -/
structure SourceCodeInfo where
  filename : String
  lineno : Option Nat
  code : List Nat
  solc_mapping : String
deriving DecidableEq

/-- One node of `ast["children"]`: only the parts the code reads, the
key set of its `attributes` dict and its `src` value; `none` models an
absent key. -/
structure AstChild where
  attributes : Option (List String)
  src : Option String
deriving DecidableEq

/-- Splitting a character list on a separator character, Python
`str.split(sep)` style: `n` separators yield `n + 1` pieces, so the
empty string splits to `[""]` and adjacent separators yield `""`. -/
def pySplitAux (sep : Char) (acc : List Char) : List Char → List String
  | [] => [String.mk acc.reverse]
  | c :: rest =>
    if c = sep then String.mk acc.reverse :: pySplitAux sep [] rest
    else pySplitAux sep (c :: acc) rest

/-- Python `s.split(sep)` for a one-character separator. -/
def pySplit (s : String) (sep : Char) : List String :=
  pySplitAux sep [] s.data

/-- Python `xs[i]`: a non-negative index counts from the front, a
negative one from the back; `none` models `IndexError`. -/
def pyGet (xs : List α) (i : Int) : Option α :=
  let j : Int := if i < 0 then (xs.length : Int) + i else i
  if 0 ≤ j then xs.get? j.toNat else none

/-- Python `xs[a:b]` with step 1: both bounds clamped to `[0, len]`,
negative bounds counting from the back. -/
def pySlice (xs : List α) (a b : Int) : List α :=
  let n : Int := (xs.length : Int)
  let s : Int := if a < 0 then max 0 (n + a) else min a n
  let e : Int := if b < 0 then max 0 (n + b) else min b n
  (xs.take e.toNat).drop s.toNat

/-- Value of a non-empty all-digit character list, `none` otherwise. -/
def digitsVal (cs : List Char) : Option Nat :=
  if cs.isEmpty then none
  else cs.foldl (fun acc c => match acc with
    | none => none
    | some n => if c.isDigit then some (n * 10 + (c.toNat - 48)) else none) (some 0)

/-- Python `int(s)`, restricted to an optional sign followed by decimal
digits; `none` models `ValueError`. -/
def pyInt (s : String) : Option Int :=
  match s.data with
  | '-' :: rest => (digitsVal rest).map (fun n => -(n : Int))
  | '+' :: rest => (digitsVal rest).map (fun n => (n : Int))
  | cs => (digitsVal cs).map (fun n => (n : Int))

/-- The string `"{}:{}:{}".format(offset, length, file_index)` (line 183
of the source). -/
def triple (o l i : Int) : String :=
  toString o ++ ":" ++ toString l ++ ":" ++ toString i

/-- `SolidityContract._is_autogenerated_code` (lines 170-188): true for
file index `-1`, else exact membership of the formatted triple in the
indexed file's `full_contract_source`. The unguarded
`self.solidity_files[file_index]` is `pyGet`. -/
def _is_autogenerated_code (files : List SolidityFile)
    (offset length file_index : Int) : Except SolcError Bool :=
  if file_index = -1 then Except.ok true
  else
    match pyGet files file_index with
    | none => Except.error SolcError.indexError
    | some f =>
      if triple offset length file_index ∈ f.full_contract_source then Except.ok true
      else Except.ok false

/-- Line number of byte `offset` in a file's content: newline (byte 10)
count of `data[0:offset]` plus 1 (lines 215-220 of the source). -/
def lineNumberOf (data : List Nat) (offset : Int) : Nat :=
  (pySlice data 0 offset).count 10 + 1

/-- One statement
`if len(mapping) > j and len(mapping[j]) > 0: x = int(mapping[j])`:
keeps `old` when field `j` is absent or empty, otherwise parses it. -/
def updateField (fields : List String) (j : Nat) (old : Option Int) :
    Except SolcError (Option Int) :=
  match fields.get? j with
  | none => Except.ok old
  | some s =>
    if s = "" then Except.ok old
    else
      match pyInt s with
      | none => Except.error SolcError.valueError
      | some v => Except.ok (some v)

/-- Lines 201-222 of the source, processing the effective (already
empty-substituted) token `item`: returns the appended entry and the new
running state `(offset, length, idx, prev_item)`. The running values
start undefined (`none`); using one while still undefined models
Python's `UnboundLocalError`. -/
def solcStepCore (files : List SolidityFile) (off0 len0 idx0 : Option Int)
    (item : String) :
    Except SolcError (SourceMapping × Option Int × Option Int × Option Int × String) :=
  match updateField (pySplit item ':') 0 off0 with
  | Except.error e => Except.error e
  | Except.ok off1 =>
    match updateField (pySplit item ':') 1 len0 with
    | Except.error e => Except.error e
    | Except.ok len1 =>
      match updateField (pySplit item ':') 2 idx0 with
      | Except.error e => Except.error e
      | Except.ok idx1 =>
        match off1, len1, idx1 with
        | some o, some l, some i =>
          (match _is_autogenerated_code files o l i with
           | Except.error e => Except.error e
           | Except.ok true =>
             Except.ok (⟨i, o, l, none, item⟩, some o, some l, some i, item)
           | Except.ok false =>
             match pyGet files i with
             | none => Except.error SolcError.indexError
             | some f =>
               Except.ok (⟨i, o, l, some (lineNumberOf f.data o), item⟩,
                 some o, some l, some i, item))
        | _, _, _ => Except.error SolcError.unboundLocal

/-- One iteration of the `_get_solc_mappings` loop (lines 198-222): an
empty token is first replaced by `prev_item` (lines 199-200), then
processed by `solcStepCore`. -/
def solcStep (files : List SolidityFile) (off0 len0 idx0 : Option Int)
    (prev_item item0 : String) :
    Except SolcError (SourceMapping × Option Int × Option Int × Option Int × String) :=
  solcStepCore files off0 len0 idx0 (if item0 = "" then prev_item else item0)

/-- The `for item in srcmap` loop of `_get_solc_mappings`: the entries
appended before any failure, and the failure if one occurred (Python
appends to the list in place, so entries appended before an exception
survive it). -/
def solcMappingsAux (files : List SolidityFile)
    (off0 len0 idx0 : Option Int) (prev_item : String) :
    List String → List SourceMapping × Option SolcError
  | [] => ([], none)
  | item0 :: rest =>
    match solcStep files off0 len0 idx0 prev_item item0 with
    | Except.error e => ([], some e)
    | Except.ok (m, off1, len1, idx1, item) =>
      let r := solcMappingsAux files off1 len1 idx1 item rest
      (m :: r.1, r.2)

/-- `_get_solc_mappings` viewed as a fallible decoder: the full entry
list when the loop completes, the raised exception otherwise. -/
def decodeSrcmap (files : List SolidityFile) (srcmap : List String) :
    Except SolcError (List SourceMapping) :=
  match solcMappingsAux files none none none "" srcmap with
  | (ms, none) => Except.ok ms
  | (_, some e) => Except.error e

/-- Decoding a raw compact map string: the caller splits it on `";"`
(`contract["srcmap-runtime"].split(";")`, lines 104-105). -/
def decodeRawMap (files : List SolidityFile) (raw : String) :
    Except SolcError (List SourceMapping) :=
  decodeSrcmap files (pySplit raw ';')

/-- The fields of `SolidityContract` the decoder and resolver touch. -/
structure ContractState where
  solidity_files : List SolidityFile
  mappings : List SourceMapping
  constructor_mappings : List SourceMapping
deriving DecidableEq

/-- `SolidityContract._get_solc_mappings` as a state transformer:
appends the decoded entries to `constructor_mappings` when
`constructor` is true, to `mappings` otherwise; the second component is
the exception if the loop raised one. -/
def _get_solc_mappings (st : ContractState) (srcmap : List String)
    (constructor : Bool) : ContractState × Option SolcError :=
  let r := solcMappingsAux st.solidity_files none none none "" srcmap
  (if constructor then { st with constructor_mappings := st.constructor_mappings ++ r.1 }
   else { st with mappings := st.mappings ++ r.1 }, r.2)

/-- `SolidityContract.get_source_info` (lines 147-168) from the
instruction `index` on: the `address → index` lookup against the
selected disassembly (line 156) is an external collaborator, so the
resolved index is a parameter. `mappings[index]` and
`self.solidity_files[...solidity_file_idx]` are the unguarded Python
indexings `pyGet`. -/
def get_source_info (st : ContractState) (index : Int) (constructor : Bool) :
    Except SolcError SourceCodeInfo :=
  let mappings := if constructor then st.constructor_mappings else st.mappings
  match pyGet mappings index with
  | none => Except.error SolcError.indexError
  | some m =>
    match pyGet st.solidity_files m.solidity_file_idx with
    | none => Except.error SolcError.indexError
    | some f =>
      Except.ok ⟨f.filename, m.lineno,
        pySlice f.data m.offset (m.offset + m.length), m.solc_mapping⟩

/-- Loop of `get_full_contract_sources` (lines 141-145) with its
accumulated `set()` (modelled as a duplicate-free list):
`child["attributes"]` and `child["src"]` raise `KeyError` when absent;
a child whose attributes lack `"contractKind"` is skipped. -/
def fullSourcesAux (acc : List String) :
    List AstChild → Except SolcError (List String)
  | [] => Except.ok acc
  | child :: rest =>
    match child.attributes with
    | none => Except.error SolcError.keyError
    | some attrs =>
      if "contractKind" ∈ attrs then
        match child.src with
        | none => Except.error SolcError.keyError
        | some s => fullSourcesAux (if s ∈ acc then acc else acc ++ [s]) rest
      else fullSourcesAux acc rest

/-- `SolidityContract.get_full_contract_sources`, taking the node list
`ast["children"]`. -/
def get_full_contract_sources (children : List AstChild) :
    Except SolcError (List String) :=
  fullSourcesAux [] children

/-- Per the spec's words, the independent parse of a single token:
decode it with fresh, fully undefined running state. -/
def parseTokenIndependent (files : List SolidityFile) (item0 : String) :
    Except SolcError SourceMapping :=
  match solcStep files none none none "" item0 with
  | Except.error e => Except.error e
  | Except.ok r => Except.ok r.1

/-- Per the spec's words: parse every token of the map independently of
the others (list-and-failure form, mirroring `solcMappingsAux`). -/
def decodeIndependentAux (files : List SolidityFile) :
    List String → List SourceMapping × Option SolcError
  | [] => ([], none)
  | t :: rest =>
    match parseTokenIndependent files t with
    | Except.error e => ([], some e)
    | Except.ok m =>
      let r := decodeIndependentAux files rest
      (m :: r.1, r.2)

/-- Per the spec's words: decode a map by parsing each token
independently of all the others. -/
def decodeIndependent (files : List SolidityFile) (srcmap : List String) :
    Except SolcError (List SourceMapping) :=
  match decodeIndependentAux files srcmap with
  | (ms, none) => Except.ok ms
  | (_, some e) => Except.error e

/-- The effective token at each position of a map: an empty token is
replaced by the previous effective token (initially `""`). -/
def effectiveTokens (prev : String) : List String → List String
  | [] => []
  | t :: rest =>
    let e := if t = "" then prev else t
    e :: effectiveTokens e rest

/-- Token whose first three `:`-fields are all present and non-empty. -/
def hasFirstThree (t : String) : Bool :=
  match pySplit t ':' with
  | a :: b :: c :: _ => (a != "") && (b != "") && (c != "")
  | _ => false

/-- Two-file registry used for concrete decoding examples: `a.sol` with
empty content, `b.sol` with content `"foo"`, no autogenerated ranges. -/
def exFiles : List SolidityFile :=
  [⟨"a.sol", [], []⟩, ⟨"b.sol", [102, 111, 111], []⟩]

/-- One-file registry whose file records `"0:2:0"` as a whole-declaration
(autogenerated) range. -/
def exFilesAuto : List SolidityFile :=
  [⟨"a.sol", [], ["0:2:0"]⟩]

/-- Contract state with the `exFiles` registry and a single runtime
mapping entry whose `solidity_file_idx` is the `-1` sentinel. -/
def bugState : ContractState :=
  ⟨exFiles, [⟨-1, 0, 2, none, "0:2:-1"⟩], []⟩

/-- Invariant of every decoded entry: its autogenerated classification
succeeded, and `lineno` is `None` exactly when it is classified
autogenerated, the line count of `data[0:offset]` otherwise (lines
212-220 of the source). -/
def entryInv (files : List SolidityFile) (m : SourceMapping) : Prop :=
  ∃ b, _is_autogenerated_code files m.offset m.length m.solidity_file_idx = Except.ok b ∧
    (b = true → m.lineno = none) ∧
    (b = false → ∃ f, pyGet files m.solidity_file_idx = some f ∧
      m.lineno = some (lineNumberOf f.data m.offset))

/-- An absent or empty field keeps the running value. -/
theorem updateField_keep {fields : List String} {j : Nat} (old : Option Int)
    (h : fields.get? j = none ∨ fields.get? j = some "") :
    updateField fields j old = Except.ok old := by
  unfold updateField
  rcases h with h | h
  · rw [h]
  · rw [h]; simp

/-- A present, non-empty field makes `updateField` independent of the
running value. -/
theorem updateField_indep {fields : List String} {j : Nat} {s : String}
    (hs : fields.get? j = some s) (hne : s ≠ "") (old old' : Option Int) :
    updateField fields j old = updateField fields j old' := by
  unfold updateField
  rw [hs]
  simp [hne]

/-- Inversion for `decodeSrcmap`: a successful decode is exactly a loop
that finished with no exception. -/
theorem decodeSrcmap_ok {files : List SolidityFile} {srcmap : List String}
    {ms : List SourceMapping} (h : decodeSrcmap files srcmap = Except.ok ms) :
    solcMappingsAux files none none none "" srcmap = (ms, none) := by
  unfold decodeSrcmap at h
  cases ha : solcMappingsAux files none none none "" srcmap with
  | mk l e =>
    rw [ha] at h
    cases e with
    | none => simp at h; rw [h]
    | some err => simp at h

/-- Inversion for one successful iteration on an effective token: the
entry satisfies `entryInv`, its stored raw token is the effective
token, and the new running state repeats the entry's fields. -/
theorem solcStepCore_ok_spec {files : List SolidityFile} {off0 len0 idx0 : Option Int}
    {item : String} {m : SourceMapping}
    {s : Option Int × Option Int × Option Int × String}
    (h : solcStepCore files off0 len0 idx0 item = Except.ok (m, s)) :
    entryInv files m ∧ m.solc_mapping = item ∧
    s = (some m.offset, some m.length, some m.solidity_file_idx, m.solc_mapping) := by
  unfold solcStepCore at h
  split at h
  · exact Except.noConfusion h
  split at h
  · exact Except.noConfusion h
  split at h
  · exact Except.noConfusion h
  split at h
  case _ o l i _ _ _ =>
    split at h
    · exact Except.noConfusion h
    case _ hauto =>
      simp only [Except.ok.injEq, Prod.mk.injEq] at h
      obtain ⟨hm, hs⟩ := h
      subst hm
      exact ⟨⟨true, hauto, fun _ => rfl, fun hb => Bool.noConfusion hb⟩, rfl, hs.symm⟩
    case _ hauto =>
      split at h
      · exact Except.noConfusion h
      case _ f hf =>
        simp only [Except.ok.injEq, Prod.mk.injEq] at h
        obtain ⟨hm, hs⟩ := h
        subst hm
        exact ⟨⟨false, hauto, fun hb => Bool.noConfusion hb, fun _ => ⟨f, hf, rfl⟩⟩, rfl, hs.symm⟩
  case _ =>
    exact Except.noConfusion h

/-- Inversion for one loop iteration, raw-token form. -/
theorem solcStep_ok_spec {files : List SolidityFile} {off0 len0 idx0 : Option Int}
    {prev_item item0 : String} {m : SourceMapping}
    {s : Option Int × Option Int × Option Int × String}
    (h : solcStep files off0 len0 idx0 prev_item item0 = Except.ok (m, s)) :
    entryInv files m ∧
    m.solc_mapping = (if item0 = "" then prev_item else item0) ∧
    s = (some m.offset, some m.length, some m.solidity_file_idx, m.solc_mapping) := by
  unfold solcStep at h
  exact solcStepCore_ok_spec h

/-- Every entry the loop ever appends satisfies `entryInv`, whatever the
incoming running state. -/
theorem solcMappingsAux_inv {files : List SolidityFile} :
    ∀ (items : List String) (off0 len0 idx0 : Option Int) (prev_item : String),
      ∀ m ∈ (solcMappingsAux files off0 len0 idx0 prev_item items).1, entryInv files m := by
  intro items
  induction items with
  | nil => intro _ _ _ _ m hm; simp [solcMappingsAux] at hm
  | cons t rest ih =>
    intro off0 len0 idx0 prev_item m hm
    unfold solcMappingsAux at hm
    cases hs : solcStep files off0 len0 idx0 prev_item t with
    | error e => rw [hs] at hm; simp at hm
    | ok r =>
      obtain ⟨m0, s0⟩ := r
      rw [hs] at hm
      simp at hm
      rcases hm with hm | hm
      · subst hm; exact (solcStep_ok_spec hs).1
      · exact ih _ _ _ _ m hm

/-- `pySlice` from 0 with a non-negative stop is a `take`. -/
theorem pySlice_zero {data : List Nat} {o : Int} (ho : 0 ≤ o) :
    pySlice data 0 o = data.take (min o (data.length : Int)).toNat := by
  unfold pySlice
  have h0 : ¬ (0 : Int) < 0 := by omega
  have hno : ¬ o < 0 := by omega
  have hmin : min (0 : Int) (data.length : Int) = 0 :=
    min_eq_left (by exact_mod_cast Nat.zero_le _)
  simp [h0, hno, hmin]

/-- Newline counts of prefixes are monotone. -/
theorem count_take_le (l : List Nat) {a b : Nat} (h : a ≤ b) (x : Nat) :
    (l.take a).count x ≤ (l.take b).count x := by
  have h1 : l.take a = (l.take b).take a := by
    rw [List.take_take, min_eq_left h]
  rw [h1]
  exact (List.take_sublist a (l.take b)).count_le x

/-- On a successful run, the stored raw tokens are exactly the effective
(post-empty-substitution) tokens. -/
theorem solcMappingsAux_tokens {files : List SolidityFile} :
    ∀ (items : List String) (off0 len0 idx0 : Option Int) (prev_item : String)
      (ms : List SourceMapping),
      solcMappingsAux files off0 len0 idx0 prev_item items = (ms, none) →
      ms.map (fun m => m.solc_mapping) = effectiveTokens prev_item items := by
  intro items
  induction items with
  | nil =>
    intro _ _ _ _ ms h
    unfold solcMappingsAux at h
    simp only [Prod.mk.injEq] at h
    rw [← h.1]
    rfl
  | cons t rest ih =>
    intro off0 len0 idx0 prev_item ms h
    unfold solcMappingsAux at h
    cases hs : solcStep files off0 len0 idx0 prev_item t with
    | error e => rw [hs] at h; simp at h
    | ok r =>
      obtain ⟨m0, s0⟩ := r
      rw [hs] at h
      simp only [Prod.mk.injEq] at h
      obtain ⟨hms, herr⟩ := h
      obtain ⟨-, hraw, hstate⟩ := solcStep_ok_spec hs
      obtain ⟨off1, len1, idx1, item1⟩ := s0
      simp only [Prod.mk.injEq] at hstate
      obtain ⟨-, -, -, hitem⟩ := hstate
      rw [← hms]
      unfold effectiveTokens
      simp only [List.map_cons, List.cons.injEq]
      refine ⟨hraw, ?_⟩
      rw [← hraw, ← hitem]
      exact ih off1 len1 idx1 item1 _ (Prod.ext rfl herr)

/-- A token with three non-empty leading fields is not the empty token. -/
theorem hasFirstThree_ne_empty {t : String} (hf : hasFirstThree t = true) :
    t ≠ "" := by
  intro ht
  subst ht
  exact absurd hf (by decide)

/-- Processing a token whose first three fields are present and
non-empty ignores the incoming running values. -/
theorem solcStepCore_indep {item : String} (hf : hasFirstThree item = true)
    (files : List SolidityFile) (off0 len0 idx0 off1 len1 idx1 : Option Int) :
    solcStepCore files off0 len0 idx0 item = solcStepCore files off1 len1 idx1 item := by
  unfold hasFirstThree at hf
  rcases hps : pySplit item ':' with _ | ⟨a, _ | ⟨b, _ | ⟨c, tl⟩⟩⟩ <;> rw [hps] at hf
  · exact Bool.noConfusion hf
  · exact Bool.noConfusion hf
  · exact Bool.noConfusion hf
  · simp only [Bool.and_eq_true, bne_iff_ne] at hf
    obtain ⟨⟨ha, hb⟩, hc⟩ := hf
    have h0 : (pySplit item ':').get? 0 = some a := by rw [hps]; rfl
    have h1 : (pySplit item ':').get? 1 = some b := by rw [hps]; rfl
    have h2 : (pySplit item ':').get? 2 = some c := by rw [hps]; rfl
    unfold solcStepCore
    rw [updateField_indep h0 ha off0 off1, updateField_indep h1 hb len0 len1,
      updateField_indep h2 hc idx0 idx1]

/-- When every token has its first three fields present and non-empty,
the stateful loop coincides with the independent per-token parse. -/
theorem solcMappingsAux_indep {files : List SolidityFile} :
    ∀ (items : List String), (∀ t ∈ items, hasFirstThree t = true) →
      ∀ (off0 len0 idx0 : Option Int) (prev_item : String),
        solcMappingsAux files off0 len0 idx0 prev_item items =
          decodeIndependentAux files items := by
  intro items
  induction items with
  | nil => intro _ _ _ _ _; rfl
  | cons t rest ih =>
    intro hall off0 len0 idx0 prev_item
    have hft : hasFirstThree t = true := hall t (by simp)
    have hrest : ∀ t' ∈ rest, hasFirstThree t' = true :=
      fun t' ht' => hall t' (by simp [ht'])
    have hne : t ≠ "" := hasFirstThree_ne_empty hft
    have hstep : solcStep files off0 len0 idx0 prev_item t =
        solcStepCore files none none none t := by
      unfold solcStep
      rw [if_neg hne]
      exact solcStepCore_indep hft files off0 len0 idx0 none none none
    have hstep2 : solcStep files none none none "" t =
        solcStepCore files none none none t := by
      unfold solcStep
      rw [if_neg hne]
    unfold solcMappingsAux decodeIndependentAux parseTokenIndependent
    rw [hstep, hstep2]
    cases hc : solcStepCore files none none none t with
    | error e => rfl
    | ok r =>
      obtain ⟨m0, off1, len1, idx1, item1⟩ := r
      simp only []
      rw [ih hrest off1 len1 idx1 item1]

/-- The unguarded `self.solidity_files[file_index]` raises `IndexError`
for a non-negative index at or past the registry length. -/
theorem isAuto_out_of_range {files : List SolidityFile} {o l i : Int}
    (h0 : 0 ≤ i) (hlen : (files.length : Int) ≤ i) :
    _is_autogenerated_code files o l i = Except.error SolcError.indexError := by
  have hi : i ≠ -1 := by omega
  unfold _is_autogenerated_code
  rw [if_neg hi]
  have hg : pyGet files i = none := by
    unfold pyGet
    have hnlt : ¬ i < 0 := by omega
    simp only [hnlt, if_false, if_pos h0]
    exact List.get?_eq_none.mpr (by omega)
  rw [hg]

/-- C1: delta decoding carries running (offset, length, file_index)
values across tokens: an empty token is processed exactly like the
preceding effective token; for a token split on `:`, a position among
the first three that is present and non-empty overwrites the running
value with its parsed integer while an absent or empty position keeps
the prior value; and the maps `"10:5:0;;20:3:0"` and `"10:5:0;15::1"`
decode to the stated triples. -/
theorem C1_delta_decoding :
    (∀ (fields : List String) (j : Nat) (old r : Option Int),
      updateField fields j old = Except.ok r →
        r = (match fields.get? j with
             | none => old
             | some s => if s = "" then old else pyInt s)) ∧
    (∀ (files : List SolidityFile) (off0 len0 idx0 : Option Int) (prev_item : String),
      solcStep files off0 len0 idx0 prev_item "" =
        solcStep files off0 len0 idx0 prev_item prev_item) ∧
    (decodeRawMap exFiles "10:5:0;;20:3:0").map
        (fun ms => ms.map (fun m => (m.offset, m.length, m.solidity_file_idx))) =
      Except.ok [(10, 5, 0), (10, 5, 0), (20, 3, 0)] ∧
    (decodeRawMap exFiles "10:5:0;15::1").map
        (fun ms => ms.map (fun m => (m.offset, m.length, m.solidity_file_idx))) =
      Except.ok [(10, 5, 0), (15, 5, 1)] := by
  refine ⟨?_, ?_, by decide, by decide⟩
  · intro fields j old r h
    unfold updateField at h
    cases hg : fields.get? j with
    | none =>
      rw [hg] at h
      exact (Except.ok.inj h).symm
    | some s =>
      rw [hg] at h
      have h' : (if s = "" then Except.ok old
          else match pyInt s with
               | none => Except.error SolcError.valueError
               | some v => Except.ok (some v)) = Except.ok r := h
      show r = if s = "" then old else pyInt s
      by_cases hs : s = ""
      · rw [if_pos hs] at h' ⊢
        exact (Except.ok.inj h').symm
      · rw [if_neg hs] at h' ⊢
        cases hp : pyInt s with
        | none => rw [hp] at h'; exact Except.noConfusion h'
        | some v => rw [hp] at h'; exact (Except.ok.inj h').symm
  · intro files off0 len0 idx0 prev_item
    unfold solcStep
    simp

/-- C1 witness: the field-update rule applied at the concrete split
`["7", "", "2"]`, position 0, undefined running value. -/
theorem C1_delta_decoding_witness :
    (some 7 : Option Int) = (match (["7", "", "2"] : List String).get? 0 with
      | none => (none : Option Int)
      | some s => if s = "" then (none : Option Int) else pyInt s) :=
  C1_delta_decoding.1 ["7", "", "2"] 0 none (some 7) (by decide)

/-- C2: code bug exhibit. For an entry whose `solidity_file_idx` is the
`-1` sentinel, `get_source_info` does not fail: Python's negative list
indexing wraps around, selects the LAST registered file (`b.sol`) and
returns a `SourceCodeInfo` built from that file's name and bytes. -/
theorem C2_minus_one_wraps_to_last_file :
    bugState.mappings.map (fun m => m.solidity_file_idx) = [-1] ∧
    pyGet bugState.solidity_files (-1) =
      some ⟨"b.sol", [102, 111, 111], []⟩ ∧
    get_source_info bugState 0 false =
      Except.ok ⟨"b.sol", none, [102, 111], "0:2:-1"⟩ := by
  refine ⟨by decide, by decide, by decide⟩

/-- C3: the autogenerated classification returns true iff the file
index is `-1` or the exact string `"{offset}:{length}:{file_index}"` is
a member of the indexed file's recorded ranges, and every decoded entry
classified autogenerated carries `lineno = none`. -/
theorem C3_autogenerated_classification :
    (∀ (files : List SolidityFile) (o l i : Int) (b : Bool),
      _is_autogenerated_code files o l i = Except.ok b →
        (b = true ↔ (i = -1 ∨ ∃ f, pyGet files i = some f ∧
          triple o l i ∈ f.full_contract_source))) ∧
    (∀ (files : List SolidityFile) (srcmap : List String) (ms : List SourceMapping),
      decodeSrcmap files srcmap = Except.ok ms →
        ∀ m ∈ ms,
          _is_autogenerated_code files m.offset m.length m.solidity_file_idx =
            Except.ok true →
          m.lineno = none) := by
  constructor
  · intro files o l i b h
    unfold _is_autogenerated_code at h
    by_cases hi : i = -1
    · rw [if_pos hi] at h
      obtain rfl : b = true := (Except.ok.inj h).symm
      simp [hi]
    · rw [if_neg hi] at h
      cases hp : pyGet files i with
      | none => rw [hp] at h; exact Except.noConfusion h
      | some f =>
        rw [hp] at h
        have h' : (if triple o l i ∈ f.full_contract_source then Except.ok true
            else Except.ok false) = Except.ok b := h
        by_cases hmem : triple o l i ∈ f.full_contract_source
        · rw [if_pos hmem] at h'
          obtain rfl : b = true := (Except.ok.inj h').symm
          exact ⟨fun _ => Or.inr ⟨f, rfl, hmem⟩, fun _ => rfl⟩
        · rw [if_neg hmem] at h'
          obtain rfl : b = false := (Except.ok.inj h').symm
          constructor
          · intro hb; exact Bool.noConfusion hb
          · intro hor
            rcases hor with hor | ⟨f', hp', hm'⟩
            · exact absurd hor hi
            · obtain rfl : f = f' := Option.some.inj hp'
              exact absurd hm' hmem
  · intro files srcmap ms hdec m hm hauto
    have hinv := solcMappingsAux_inv srcmap none none none "" m
      (by rw [decodeSrcmap_ok hdec]; exact hm)
    obtain ⟨b, hb, htrue, -⟩ := hinv
    have hbt : b = true := by
      rw [hauto] at hb
      exact (Except.ok.inj hb).symm
    exact htrue hbt

/-- C3 witness: both conjuncts at concrete inputs — classification of a
`-1` entry, and an entry matching the recorded range `"0:2:0"` decoding
with no line number. -/
theorem C3_autogenerated_classification_witness :
    (true = true ↔ ((-1 : Int) = -1 ∨ ∃ f, pyGet exFiles (-1) = some f ∧
      triple 0 2 (-1) ∈ f.full_contract_source)) ∧
    (⟨0, 0, 2, none, "0:2:0"⟩ : SourceMapping).lineno = none :=
  ⟨C3_autogenerated_classification.1 exFiles 0 2 (-1) true (by decide),
   C3_autogenerated_classification.2 exFilesAuto ["0:2:0"]
     [⟨0, 0, 2, none, "0:2:0"⟩] (by decide)
     ⟨0, 0, 2, none, "0:2:0"⟩ (by decide) (by decide)⟩

/-- C4: every decoded entry not classified autogenerated carries the
newline count of `data[0:offset]` of its file plus one; line numbers
are 1-indexed, an offset with no preceding newline yields line 1, and
the line number is monotone in the offset within one file. -/
theorem C4_line_numbers :
    (∀ (files : List SolidityFile) (srcmap : List String) (ms : List SourceMapping),
      decodeSrcmap files srcmap = Except.ok ms →
        ∀ m ∈ ms,
          _is_autogenerated_code files m.offset m.length m.solidity_file_idx =
            Except.ok false →
          ∃ f, pyGet files m.solidity_file_idx = some f ∧
            m.lineno = some (lineNumberOf f.data m.offset)) ∧
    (∀ (data : List Nat) (offset : Int),
      (pySlice data 0 offset).count 10 = 0 → lineNumberOf data offset = 1) ∧
    (∀ (data : List Nat) (offset : Int), 1 ≤ lineNumberOf data offset) ∧
    (∀ (data : List Nat) (o1 o2 : Int), 0 ≤ o1 → o1 ≤ o2 →
      lineNumberOf data o1 ≤ lineNumberOf data o2) := by
  refine ⟨?_, ?_, ?_, ?_⟩
  · intro files srcmap ms hdec m hm hauto
    have hinv := solcMappingsAux_inv srcmap none none none "" m
      (by rw [decodeSrcmap_ok hdec]; exact hm)
    obtain ⟨b, hb, -, hfalse⟩ := hinv
    have hbf : b = false := by
      rw [hauto] at hb
      exact (Except.ok.inj hb).symm
    exact hfalse hbf
  · intro data offset h
    unfold lineNumberOf
    rw [h]
  · intro data offset
    exact Nat.succ_le_succ (Nat.zero_le _)
  · intro data o1 o2 h1 h12
    unfold lineNumberOf
    rw [pySlice_zero h1, pySlice_zero (le_trans h1 h12)]
    exact Nat.add_le_add_right
      (count_take_le data (Int.toNat_le_toNat (min_le_min h12 le_rfl)) 10) 1

/-- C4 witness: all four conjuncts at concrete inputs; the map
`"3:1:1"` decodes against `exFiles` to an entry of file 1 (`"foo"`,
no newlines) with line number 1. -/
theorem C4_line_numbers_witness :
    (∃ f, pyGet exFiles (1 : Int) = some f ∧
      (⟨1, 3, 1, some 1, "3:1:1"⟩ : SourceMapping).lineno =
        some (lineNumberOf f.data 3)) ∧
    lineNumberOf [102, 111, 111] 2 = 1 ∧
    1 ≤ lineNumberOf [102, 111, 111] 2 ∧
    lineNumberOf [102, 10, 111] 1 ≤ lineNumberOf [102, 10, 111] 3 :=
  ⟨C4_line_numbers.1 exFiles ["3:1:1"] [⟨1, 3, 1, some 1, "3:1:1"⟩] (by decide)
      ⟨1, 3, 1, some 1, "3:1:1"⟩ (by decide) (by decide),
   C4_line_numbers.2.1 [102, 111, 111] 2 (by decide),
   C4_line_numbers.2.2.1 [102, 111, 111] 2,
   C4_line_numbers.2.2.2 [102, 10, 111] 1 3 (by decide) (by decide)⟩

/-- C5 counterexample: in the raw map `"10:5:0;"` the second token is
the empty string, yet the second entry's stored raw token is the
substituted `"10:5:0"`, not the original `""` the claim requires. -/
theorem C5_raw_token_counterexample :
    (decodeRawMap exFiles "10:5:0;").map (fun ms => ms.map (fun m => m.solc_mapping)) =
      Except.ok ["10:5:0", "10:5:0"] ∧ ("10:5:0" : String) ≠ "" :=
  ⟨by decide, by decide⟩

/-- C5 amended: the entry appended for each token stores as
`solc_mapping` the EFFECTIVE token text, i.e. the token after
empty-token substitution (an empty token stores the previous effective
token, not `""`). -/
theorem C5_raw_token_post_substitution :
    ∀ (files : List SolidityFile) (srcmap : List String) (ms : List SourceMapping),
      decodeSrcmap files srcmap = Except.ok ms →
        ms.map (fun m => m.solc_mapping) = effectiveTokens "" srcmap := by
  intro files srcmap ms h
  exact solcMappingsAux_tokens srcmap none none none "" ms (decodeSrcmap_ok h)

/-- C5 witness: the amended statement at the concrete map
`["10:5:0", ""]`. -/
theorem C5_raw_token_post_substitution_witness :
    ([⟨0, 10, 5, some 1, "10:5:0"⟩, ⟨0, 10, 5, some 1, "10:5:0"⟩] :
        List SourceMapping).map (fun m => m.solc_mapping) =
      effectiveTokens "" ["10:5:0", ""] :=
  C5_raw_token_post_substitution exFiles ["10:5:0", ""] _ (by decide)

/-- C6 counterexample: a single declaration node missing its
`attributes` dict makes extraction fail with `KeyError` instead of
being skipped and an (empty) partial set returned. -/
theorem C6_malformed_counterexample :
    get_full_contract_sources [⟨none, none⟩] = Except.error SolcError.keyError := by
  decide

/-- C6 amended: only a declaration whose `attributes` dict is present
but lacks the `"contractKind"` key is skipped silently; a declaration
missing `attributes` entirely, or carrying `"contractKind"` but missing
`src`, makes extraction fail with `KeyError`. -/
theorem C6_malformed_declarations :
    (∀ (acc : List String) (child : AstChild) (rest : List AstChild)
        (attrs : List String),
      child.attributes = some attrs → "contractKind" ∉ attrs →
        fullSourcesAux acc (child :: rest) = fullSourcesAux acc rest) ∧
    (∀ (acc : List String) (child : AstChild) (rest : List AstChild),
      child.attributes = none →
        fullSourcesAux acc (child :: rest) = Except.error SolcError.keyError) ∧
    (∀ (acc : List String) (child : AstChild) (rest : List AstChild)
        (attrs : List String),
      child.attributes = some attrs → "contractKind" ∈ attrs → child.src = none →
        fullSourcesAux acc (child :: rest) = Except.error SolcError.keyError) := by
  refine ⟨?_, ?_, ?_⟩
  · intro acc child rest attrs hattr hnk
    conv_lhs => unfold fullSourcesAux
    simp only [hattr]
    rw [if_neg hnk]
  · intro acc child rest hattr
    conv_lhs => unfold fullSourcesAux
    simp only [hattr]
  · intro acc child rest attrs hattr hk hsrc
    conv_lhs => unfold fullSourcesAux
    simp only [hattr]
    rw [if_pos hk]
    simp only [hsrc]

/-- C6 witness: the three amended cases at concrete declaration lists. -/
theorem C6_malformed_declarations_witness :
    fullSourcesAux [] [⟨some ["kind"], none⟩] = fullSourcesAux [] [] ∧
    fullSourcesAux [] [⟨none, some "0:1:0"⟩] = Except.error SolcError.keyError ∧
    fullSourcesAux [] [⟨some ["contractKind"], none⟩] =
      Except.error SolcError.keyError :=
  ⟨C6_malformed_declarations.1 [] ⟨some ["kind"], none⟩ [] ["kind"] rfl (by decide),
   C6_malformed_declarations.2.1 [] ⟨none, some "0:1:0"⟩ [] rfl,
   C6_malformed_declarations.2.2 [] ⟨some ["contractKind"], none⟩ []
     ["contractKind"] rfl (by decide) rfl⟩

/-- C7: a raw map whose very first token leaves any of the first three
fields absent or empty makes the decode fail with an error (Python's
`UnboundLocalError`, or a `ValueError` in another field) and produce no
entry from sentinel or undefined values. -/
theorem C7_leading_token_omitted_field_fails :
    ∀ (files : List SolidityFile) (t : String) (rest : List String) (j : Nat),
      j < 3 →
      ((pySplit t ':').get? j = none ∨ (pySplit t ':').get? j = some "") →
      ∃ e, decodeSrcmap files (t :: rest) = Except.error e := by
  intro files t rest j hj hcond
  have hitem : (if t = "" then "" else t) = t := by
    by_cases ht : t = "" <;> simp [ht]
  have hcore : ∃ e, solcStepCore files none none none t = Except.error e := by
    unfold solcStepCore
    cases h0 : updateField (pySplit t ':') 0 none with
    | error e => exact ⟨e, rfl⟩
    | ok off1 =>
      cases h1 : updateField (pySplit t ':') 1 none with
      | error e => exact ⟨e, rfl⟩
      | ok len1 =>
        cases h2 : updateField (pySplit t ':') 2 none with
        | error e => exact ⟨e, rfl⟩
        | ok idx1 =>
          have hnone : off1 = none ∨ len1 = none ∨ idx1 = none := by
            have hj3 : j = 0 ∨ j = 1 ∨ j = 2 := by omega
            rcases hj3 with rfl | rfl | rfl
            · rw [updateField_keep none hcond] at h0
              exact Or.inl (Except.ok.inj h0).symm
            · rw [updateField_keep none hcond] at h1
              exact Or.inr (Or.inl (Except.ok.inj h1).symm)
            · rw [updateField_keep none hcond] at h2
              exact Or.inr (Or.inr (Except.ok.inj h2).symm)
          refine ⟨SolcError.unboundLocal, ?_⟩
          rcases hnone with rfl | rfl | rfl
          · cases len1 <;> cases idx1 <;> rfl
          · cases off1 <;> cases idx1 <;> rfl
          · cases off1 <;> cases len1 <;> rfl
  obtain ⟨e, he⟩ := hcore
  have hstep : solcStep files none none none "" t = Except.error e := by
    unfold solcStep
    rw [hitem]
    exact he
  exact ⟨e, by simp [decodeSrcmap, solcMappingsAux, hstep]⟩

/-- C7 witness: the first token `"7:1"` omits its third field, so the
map `"7:1;1:1:0"` fails to decode against the empty registry. -/
theorem C7_leading_token_omitted_field_fails_witness :
    ((0 : Nat) < 3 ∧ ((pySplit "7:1" ':').get? 2 = none ∨
      (pySplit "7:1" ':').get? 2 = some "")) ∧
    ∃ e, decodeSrcmap [] ["7:1", "1:1:0"] = Except.error e :=
  ⟨⟨by decide, Or.inl (by decide)⟩,
   C7_leading_token_omitted_field_fails [] "7:1" ["1:1:0"] 2 (by decide)
     (Or.inl (by decide))⟩

/-- C8 counterexample: the map `["10:5:0", "15::1"]` has no empty token,
yet decoding is NOT equivalent to parsing each token independently —
the second entry inherits its length from the first token, as changing
the first token's length from 5 to 7 changes the second entry. -/
theorem C8_no_empty_tokens_counterexample :
    ("" ∉ (["10:5:0", "15::1"] : List String)) ∧
    decodeSrcmap exFiles ["10:5:0", "15::1"] ≠
      decodeIndependent exFiles ["10:5:0", "15::1"] ∧
    (decodeSrcmap exFiles ["10:5:0", "15::1"]).map
        (fun ms => ms.map (fun m => (m.offset, m.length, m.solidity_file_idx))) =
      Except.ok [(10, 5, 0), (15, 5, 1)] ∧
    (decodeSrcmap exFiles ["10:7:0", "15::1"]).map
        (fun ms => ms.map (fun m => (m.offset, m.length, m.solidity_file_idx))) =
      Except.ok [(10, 7, 0), (15, 7, 1)] :=
  ⟨by decide, by decide, by decide, by decide⟩

/-- C8 amended: for raw maps in which every token has its first three
fields present and non-empty, decoding the whole map is equivalent to
parsing each token independently of the others. -/
theorem C8_full_tokens_independent :
    ∀ (files : List SolidityFile) (srcmap : List String),
      (∀ t ∈ srcmap, hasFirstThree t = true) →
      decodeSrcmap files srcmap = decodeIndependent files srcmap := by
  intro files srcmap h
  unfold decodeSrcmap decodeIndependent
  rw [solcMappingsAux_indep srcmap h none none none ""]

/-- C8 witness: the amended equivalence at the concrete two-token map
`["10:5:0", "20:3:1"]`. -/
theorem C8_full_tokens_independent_witness :
    decodeSrcmap exFiles ["10:5:0", "20:3:1"] =
      decodeIndependent exFiles ["10:5:0", "20:3:1"] :=
  C8_full_tokens_independent exFiles ["10:5:0", "20:3:1"] (by decide)

/-- C9: a non-negative file index at or past the registry length makes
the autogenerated check fail with `IndexError` (the unguarded
`self.solidity_files[file_index]`), so no such entry is ever returned:
every successfully decoded entry with a non-negative index is in range. -/
theorem C9_out_of_range_file_index :
    (∀ (files : List SolidityFile) (o l i : Int),
      0 ≤ i → (files.length : Int) ≤ i →
        _is_autogenerated_code files o l i = Except.error SolcError.indexError) ∧
    (∀ (files : List SolidityFile) (srcmap : List String) (ms : List SourceMapping),
      decodeSrcmap files srcmap = Except.ok ms →
        ∀ m ∈ ms, 0 ≤ m.solidity_file_idx →
          m.solidity_file_idx < (files.length : Int)) := by
  constructor
  · intro files o l i h0 hlen
    exact isAuto_out_of_range h0 hlen
  · intro files srcmap ms hdec m hm h0
    by_contra hcon
    push_neg at hcon
    have hinv := solcMappingsAux_inv srcmap none none none "" m
      (by rw [decodeSrcmap_ok hdec]; exact hm)
    obtain ⟨b, hb, -, -⟩ := hinv
    rw [isAuto_out_of_range h0 hcon] at hb
    exact Except.noConfusion hb

/-- C9 witness: both conjuncts at concrete inputs — index 0 against the
empty registry errors, and the decoded entry of `"1:1:0"` has its index
0 in range for the two-file registry. -/
theorem C9_out_of_range_file_index_witness :
    _is_autogenerated_code [] 0 0 0 = Except.error SolcError.indexError ∧
    (0 : Int) < ((exFiles.length : Nat) : Int) :=
  ⟨C9_out_of_range_file_index.1 [] 0 0 0 (by decide) (by decide),
   C9_out_of_range_file_index.2 exFiles ["1:1:0"] [⟨0, 1, 1, some 1, "1:1:0"⟩]
     (by decide) ⟨0, 1, 1, some 1, "1:1:0"⟩ (by decide) (by decide)⟩

/-- C10: decoding with `constructor=False` appends only to `mappings`
and leaves `constructor_mappings` (and the registry) unchanged, and
conversely; and `get_source_info` reads only the sequence selected by
its flag, so each resolution is invariant under any change to the other
sequence. -/
theorem C10_runtime_constructor_frame :
    (∀ (st : ContractState) (srcmap : List String),
      (_get_solc_mappings st srcmap false).1.constructor_mappings =
        st.constructor_mappings ∧
      (_get_solc_mappings st srcmap false).1.solidity_files = st.solidity_files ∧
      (_get_solc_mappings st srcmap true).1.mappings = st.mappings ∧
      (_get_solc_mappings st srcmap true).1.solidity_files = st.solidity_files) ∧
    (∀ (st : ContractState) (index : Int) (ms' : List SourceMapping),
      get_source_info { st with constructor_mappings := ms' } index false =
        get_source_info st index false ∧
      get_source_info { st with mappings := ms' } index true =
        get_source_info st index true) :=
  ⟨fun _ _ => ⟨rfl, rfl, rfl, rfl⟩, fun _ _ _ => ⟨rfl, rfl⟩⟩

end Solc
